import Mathlib

/-!
Shallow embedding of the review orchestration engine of the sf-demo
repository: the Salesforce file detector (src/utils/salesforce-files.ts),
the response normalizer (src/llm/base-provider.ts, i.e. BaseLLMProvider),
the provider manager (src/llm/llm-manager.ts), the OpenAI adapter skeleton
(src/llm/openai-provider.ts), the review aggregator
(src/github/client.ts, ReviewService) and the dependency-aware context
fetcher (src/services/context-fetcher.ts).

External collaborators (GitHub REST calls, the LLM backends, JSON.parse)
are modelled as explicit environment records of functions; everything the
repository's own code computes is translated directly.  TypeScript
`Map`/`Record` values are modelled as association lists preserving JS
insertion order; thrown/caught exceptions are modelled with `Except` and
`Option` at the places the source throws and catches them.
-/

namespace SfDemo

/-! ## Data model (src/types/index.ts) -/

inductive Severity where
  | critical
  | warning
  | improvement
deriving DecidableEq, Repr

inductive Category where
  | security
  | performance
  | maintainability
  | bestPractice
  | bug
deriving DecidableEq, Repr

/-- The kebab-case key the source uses for a category string. -/
def Category.key : Category → String
  | .security => "security"
  | .performance => "performance"
  | .maintainability => "maintainability"
  | .bestPractice => "best-practice"
  | .bug => "bug"

inductive RiskLevel where
  | low
  | medium
  | high
deriving DecidableEq, Repr

inductive FileStatus where
  | added
  | modified
  | removed
deriving DecidableEq, Repr

structure FileChange where
  filename : String
  status : FileStatus
  additions : Nat
  deletions : Nat
  changes : Nat
  patch : Option String
deriving DecidableEq, Repr

structure CodeReviewFeedback where
  line : Nat
  message : String
  severity : Severity
  category : Category
  file : String
  suggestion : Option String
deriving DecidableEq, Repr

structure ReviewSummary where
  totalIssues : Nat
  criticalIssues : Nat
  warnings : Nat
  improvements : Nat
  categories : List (String × Nat)
  recommendations : List String
deriving DecidableEq, Repr

structure PRAnalysisContext where
  totalFilesChanged : Nat
  linesAdded : Nat
  linesDeleted : Nat
  overview : Option String
  primaryChanges : List String
  riskLevel : Option RiskLevel
  recommendationSummary : Option String
deriving DecidableEq, Repr

structure LLMResponse where
  feedback : List CodeReviewFeedback
  summary : ReviewSummary
  prAnalysis : Option PRAnalysisContext
deriving DecidableEq, Repr

inductive ReviewEvent where
  | COMMENT
  | APPROVE
  | REQUEST_CHANGES
deriving DecidableEq, Repr

structure GitHubReviewComment where
  path : String
  line : Nat
  body : String
deriving DecidableEq, Repr

structure GitHubPullRequestReview where
  event : ReviewEvent
  body : String
  comments : List GitHubReviewComment
deriving DecidableEq, Repr

/-! ## JS string primitives

Char-list implementations (structural, so concrete witnesses evaluate by
`rfl`/`decide`) of the JavaScript string operations the source uses. -/

/-- JS `s.split(sep)` for a non-empty separator.  The fuel argument (one
more than the character count) only drives structural recursion; every
step consumes at least one character. -/
def jsSplitGo (sep : List Char) : Nat → List Char → List Char → List (List Char)
  | 0, cs, acc => [acc.reverse ++ cs]
  | fuel + 1, cs, acc =>
    match cs with
    | [] => [acc.reverse]
    | c :: rest =>
      if sep.isPrefixOf cs then
        acc.reverse :: jsSplitGo sep fuel (cs.drop sep.length) []
      else
        jsSplitGo sep fuel rest (c :: acc)

def jsSplit (s sep : String) : List String :=
  (jsSplitGo sep.data (s.data.length + 1) s.data []).map String.mk

/-- JS `s.trim()`. -/
def jsTrim (s : String) : String :=
  String.mk
    (((s.data.dropWhile (fun c => c.isWhitespace)).reverse.dropWhile
        (fun c => c.isWhitespace)).reverse)

/-- JS `s.toLowerCase()`. -/
def jsToLower (s : String) : String :=
  String.mk (s.data.map Char.toLower)

/-- JS `s.endsWith(pat)`. -/
def jsEndsWith (s pat : String) : Bool :=
  pat.data.isSuffixOf s.data

/-- JS `s.startsWith(pat)`. -/
def jsStartsWith (s pat : String) : Bool :=
  pat.data.isPrefixOf s.data

/-- Drop leading whitespace (the `\s*` after a stripped fence marker). -/
def lstripWs (s : String) : String :=
  String.mk (s.data.dropWhile (fun c => c.isWhitespace))

/-! ## Salesforce file detector (src/utils/salesforce-files.ts) -/

inductive SfType where
  | apexClass
  | apexTrigger
  | lwc
  | aura
  | object
  | flow
  | permission
  | other
deriving DecidableEq, Repr

inductive SfPriority where
  | high
  | medium
  | low
deriving DecidableEq, Repr

structure SalesforceFileType where
  extension : String
  type : SfType
  priority : SfPriority
  parser : String
deriving DecidableEq, Repr

/-- The `SALESFORCE_FILE_TYPES` lookup table, in source order. -/
def SALESFORCE_FILE_TYPES : List SalesforceFileType :=
  [ ⟨".cls", .apexClass, .high, "apex"⟩
  , ⟨".cls-meta.xml", .apexClass, .high, "xml"⟩
  , ⟨".trigger", .apexTrigger, .high, "apex"⟩
  , ⟨".trigger-meta.xml", .apexTrigger, .high, "xml"⟩
  , ⟨".js", .lwc, .medium, "javascript"⟩
  , ⟨".js-meta.xml", .lwc, .medium, "xml"⟩
  , ⟨".html", .lwc, .medium, "html"⟩
  , ⟨".css", .lwc, .medium, "css"⟩
  , ⟨".cmp", .aura, .medium, "html"⟩
  , ⟨".cmp-meta.xml", .aura, .medium, "xml"⟩
  , ⟨".app", .aura, .medium, "html"⟩
  , ⟨".app-meta.xml", .aura, .medium, "xml"⟩
  , ⟨".object-meta.xml", .object, .medium, "xml"⟩
  , ⟨".field-meta.xml", .object, .medium, "xml"⟩
  , ⟨".flow-meta.xml", .flow, .low, "xml"⟩
  , ⟨".permissionset-meta.xml", .permission, .low, "xml"⟩
  , ⟨".profile-meta.xml", .permission, .low, "xml"⟩
  , ⟨".layout-meta.xml", .other, .low, "xml"⟩
  , ⟨".component", .other, .low, "html"⟩
  , ⟨".page", .other, .low, "html"⟩ ]

def isSalesforceFile (filename : String) : Bool :=
  SALESFORCE_FILE_TYPES.any (fun t => jsEndsWith filename t.extension)

def getFileType (filename : String) : Option SalesforceFileType :=
  SALESFORCE_FILE_TYPES.find? (fun t => jsEndsWith filename t.extension)

structure PriorityBuckets where
  high : List String
  medium : List String
  low : List String
  other : List String
deriving DecidableEq, Repr

def getFilesByPriority (filenames : List String) : PriorityBuckets :=
  filenames.foldl
    (fun acc filename =>
      match getFileType filename with
      | some ft =>
          match ft.priority with
          | .high => { acc with high := acc.high ++ [filename] }
          | .medium => { acc with medium := acc.medium ++ [filename] }
          | .low => { acc with low := acc.low ++ [filename] }
      | none => { acc with other := acc.other ++ [filename] })
    ⟨[], [], [], []⟩

/-! ## Response normalizer (BaseLLMProvider, src/llm/base-provider.ts) -/

/-- JS `s.includes(needle)` for string needles. -/
def substrOf (needle s : String) : Bool :=
  (jsSplit s needle).length > 1

def digitsToNat (cs : List Char) : Nat :=
  cs.foldl (fun n c => n * 10 + (c.toNat - 48)) 0

/-- Try to match the `\s+(\d+):` tail of `/Line\s+(\d+):/` at this point
(just after an occurrence of `Line`). -/
def matchLineNumAt (cs : List Char) : Option Nat :=
  let ws := cs.takeWhile (fun c => c.isWhitespace)
  if ws.isEmpty then none
  else
    let afterWs := cs.dropWhile (fun c => c.isWhitespace)
    let digits := afterWs.takeWhile (fun c => c.isDigit)
    if digits.isEmpty then none
    else
      match afterWs.drop digits.length with
      | ':' :: _ => some (digitsToNat digits)
      | _ => none

/-- Leftmost match of `/Line\s+(\d+):/`, as JS `String.match`. -/
def findLineNumAux : List Char → Option Nat
  | [] => none
  | c :: rest =>
    if (c :: rest).take 4 = ['L', 'i', 'n', 'e'] then
      match matchLineNumAt (rest.drop 3) with
      | some n => some n
      | none => findLineNumAux rest
    else findLineNumAux rest

def findLineNum (s : String) : Option Nat :=
  findLineNumAux s.data

/-- Leftmost capture of `/File:\s*(.+)/` (the lines scanned are already
trimmed, so the greedy `\s*` never needs to backtrack). -/
def findFileCaptureAux : List Char → Option String
  | [] => none
  | c :: rest =>
    if (c :: rest).take 5 = ['F', 'i', 'l', 'e', ':'] then
      let afterWs := (rest.drop 4).dropWhile (fun ch => ch.isWhitespace)
      if afterWs.isEmpty then findFileCaptureAux rest else some (String.mk afterWs)
    else findFileCaptureAux rest

def findFileCapture (s : String) : Option String :=
  findFileCaptureAux s.data

def inferSeverity (message : String) : Severity :=
  let lowerMessage := jsToLower message
  if substrOf "security" lowerMessage || substrOf "vulnerability" lowerMessage
      || substrOf "injection" lowerMessage || substrOf "error" lowerMessage then
    .critical
  else if substrOf "warning" lowerMessage || substrOf "issue" lowerMessage
      || substrOf "problem" lowerMessage then
    .warning
  else
    .improvement

def inferCategory (message : String) : Category :=
  let lowerMessage := jsToLower message
  if substrOf "security" lowerMessage || substrOf "injection" lowerMessage
      || substrOf "vulnerability" lowerMessage then
    .security
  else if substrOf "performance" lowerMessage || substrOf "slow" lowerMessage
      || substrOf "optimize" lowerMessage then
    .performance
  else if substrOf "maintain" lowerMessage || substrOf "complex" lowerMessage
      || substrOf "refactor" lowerMessage then
    .maintainability
  else if substrOf "best practice" lowerMessage || substrOf "convention" lowerMessage
      || substrOf "standard" lowerMessage then
    .bestPractice
  else
    .bug

/-- Increment a key of a JS `Record<string, number>` (insertion order kept). -/
def bumpCategory (m : List (String × Nat)) (k : String) : List (String × Nat) :=
  if m.any (fun p => p.1 == k) then
    m.map (fun p => if p.1 == k then (p.1, p.2 + 1) else p)
  else
    m ++ [(k, 1)]

def categorizeIssues (feedback : List CodeReviewFeedback) : List (String × Nat) :=
  feedback.foldl (fun acc item => bumpCategory acc item.category.key) []

/-- The line loop of `createFallbackResponse`, carrying the mutable
`currentFile` / `currentLine` of the source as parameters. -/
def fallbackScan : List String → String → Nat → List CodeReviewFeedback
  | [], _, _ => []
  | line :: rest, currentFile, currentLine =>
    let trimmed := jsTrim line
    let currentLine' :=
      if substrOf "Line" trimmed && substrOf ":" trimmed then
        match findLineNum trimmed with
        | some n => n
        | none => currentLine
      else currentLine
    let currentFile' :=
      if substrOf "File:" trimmed then
        match findFileCapture trimmed with
        | some cap => jsTrim cap
        | none => currentFile
      else currentFile
    let here :=
      if trimmed.length > 20 && currentFile' ≠ "" && currentLine' > 0 then
        [{ line := currentLine'
         , message := trimmed
         , severity := inferSeverity trimmed
         , category := inferCategory trimmed
         , file := currentFile'
         , suggestion := none }]
      else []
    here ++ fallbackScan rest currentFile' currentLine'

def createFallbackResponse (rawResponse : String) : LLMResponse :=
  let feedback := fallbackScan (jsSplit rawResponse "\n") "" 0
  { feedback := feedback
  , summary :=
    { totalIssues := feedback.length
    , criticalIssues := (feedback.filter (fun f => f.severity == .critical)).length
    , warnings := (feedback.filter (fun f => f.severity == .warning)).length
    , improvements := (feedback.filter (fun f => f.severity == .improvement)).length
    , categories := categorizeIssues feedback
    , recommendations := [] }
  , prAnalysis := none }

def rstripWs (s : String) : String :=
  String.mk ((s.data.reverse.dropWhile (fun c => c.isWhitespace)).reverse)

/-- Model of `replace(/\s*```$/, '')` on a string (anchored at the very end). -/
def stripTrailingFence (s : String) : String :=
  if jsEndsWith s "```" then rstripWs (s.dropRight 3) else s

/-- The fenced-block stripping at the top of `parseReviewResponse`. -/
def cleanLLMResponse (response : String) : String :=
  let cleanResponse := jsTrim response
  if jsStartsWith cleanResponse "```json" then
    stripTrailingFence (lstripWs (cleanResponse.drop 7))
  else if jsStartsWith cleanResponse "```" then
    stripTrailingFence (lstripWs (cleanResponse.drop 3))
  else cleanResponse

/-- Model of `parseReviewResponse`.  Here `decode` abstracts `JSON.parse` followed by the
`isValidLLMResponse` shape check: `none` exactly when that pair throws or
rejects, which in the source routes to `createFallbackResponse` applied to
the original (uncleaned) response. -/
def parseReviewResponse (decode : String → Option LLMResponse) (response : String) :
    LLMResponse :=
  match decode (cleanLLMResponse response) with
  | some parsed => parsed
  | none => createFallbackResponse response

/-! ## OpenAI adapter (src/llm/openai-provider.ts)

The backend call (chat completion racing a timeout) is abstracted as an
`Except String String` outcome: `.error` for a network/timeout/API
failure, `.ok raw` for a returned message.  A missing `choices` entry and
an empty `content` string both trip the same `Empty response from OpenAI`
throw in the source, so they are modelled uniformly as `.ok ""`. -/

def openaiGenerateReview (respond : Except String String)
    (decode : String → Option LLMResponse) : Except String LLMResponse :=
  match respond with
  | .error e => .error ("OpenAI review generation failed: " ++ e)
  | .ok raw =>
    if raw.isEmpty then
      .error "OpenAI review generation failed: Error: Empty response from OpenAI"
    else
      .ok (parseReviewResponse decode raw)

/-! ## Provider manager (src/llm/llm-manager.ts)

The two adapters are modelled as functions of exactly the arguments the
manager hands them; the returned call list instruments which adapter was
invoked, in order, and with which arguments. -/

inductive ProviderTag where
  | primary
  | fallback
deriving DecidableEq, Repr

structure ContextFileData where
  path : String
  content : String
  type : SfType
deriving DecidableEq, Repr

abbrev ContextMap := List (String × ContextFileData)

structure LLMCall where
  tag : ProviderTag
  prompt : String
  code : String
  context : ContextMap
deriving DecidableEq, Repr

structure LLMEnv where
  primary : String → String → ContextMap → Except String LLMResponse
  fallback : String → String → ContextMap → Except String LLMResponse

/-- Model of `LLMManager.generateReview`, instrumented with the ordered list of
adapter invocations. -/
def llmGenerateReview (env : LLMEnv) (prompt code : String) (context : ContextMap) :
    Except String LLMResponse × List LLMCall :=
  match env.primary prompt code context with
  | .ok result => (.ok result, [⟨.primary, prompt, code, context⟩])
  | .error primaryError =>
    match env.fallback prompt code context with
    | .ok result =>
        (.ok result,
         [⟨.primary, prompt, code, context⟩, ⟨.fallback, prompt, code, context⟩])
    | .error fallbackError =>
        (.error ("All LLM providers failed. Primary: " ++ primaryError
                  ++ ", Fallback: " ++ fallbackError),
         [⟨.primary, prompt, code, context⟩, ⟨.fallback, prompt, code, context⟩])

/-! ## Review aggregator (ReviewService, src/github/client.ts) -/

def getSeverityEmoji : Severity → String
  | .critical => "🔴"
  | .warning => "🟡"
  | .improvement => "🔵"

def getCategoryTag : Category → String
  | .security => "Security Issue"
  | .performance => "Performance"
  | .maintainability => "Maintainability"
  | .bestPractice => "Best Practice"
  | .bug => "Potential Bug"

def getCategoryEmoji (category : String) : String :=
  if category == "security" then "🔒"
  else if category == "performance" then "⚡"
  else if category == "maintainability" then "🔧"
  else if category == "best-practice" then "📚"
  else if category == "bug" then "🐛"
  else "📝"

/-- The inline-comment construction of `postBatchedPullRequestReview`. -/
def inlineComments (allFeedback : List CodeReviewFeedback) : List GitHubReviewComment :=
  allFeedback.map (fun feedback =>
    let emoji := getSeverityEmoji feedback.severity
    let categoryTag := getCategoryTag feedback.category
    let base := emoji ++ " **" ++ categoryTag ++ "**\n\n" ++ feedback.message
    let body :=
      match feedback.suggestion with
      | some s =>
          if (jsTrim s).length > 0 then base ++ "\n\n**💡 Suggestion:**\n" ++ s else base
      | none => base
    { path := feedback.file, line := feedback.line, body := body })

/-- The review-event computation of `postBatchedPullRequestReview`
(lines 442-448 of src/github/client.ts). -/
def reviewEventOf (allFeedback : List CodeReviewFeedback) : ReviewEvent :=
  let hasCritical := allFeedback.any (fun f => f.severity == .critical)
  if hasCritical then .REQUEST_CHANGES
  else if allFeedback.length > 0 then .COMMENT
  else .APPROVE

def extractPRAnalysis (reviewResults : List LLMResponse) (changedFiles : List FileChange) :
    PRAnalysisContext :=
  let combinedAnalysis :=
    (reviewResults.find? (fun r => r.prAnalysis.isSome)).bind (fun r => r.prAnalysis)
  let totalFiles := changedFiles.length
  let totalAdded := changedFiles.foldl (fun sum file => sum + file.additions) 0
  let totalDeleted := changedFiles.foldl (fun sum file => sum + file.deletions) 0
  match combinedAnalysis with
  | some a =>
      { a with
        totalFilesChanged := totalFiles
        linesAdded := totalAdded
        linesDeleted := totalDeleted }
  | none =>
      { totalFilesChanged := totalFiles
      , linesAdded := totalAdded
      , linesDeleted := totalDeleted
      , overview := none
      , primaryChanges := []
      , riskLevel := none
      , recommendationSummary := none }

/-- The risk-level computation inside `generateImpactAssessment`. -/
def impactRiskLevel (prAnalysis : PRAnalysisContext) (totalIssues criticalIssues : Nat) :
    RiskLevel :=
  match prAnalysis.riskLevel with
  | some rl => rl
  | none =>
    if criticalIssues > 0 || totalIssues > 10 then .high
    else if totalIssues > 3 || prAnalysis.linesAdded + prAnalysis.linesDeleted > 100 then
      .medium
    else .low

def capitalize (s : String) : String :=
  match s.data with
  | [] => ""
  | c :: cs => String.mk (c.toUpper :: cs)

def riskLevelText : RiskLevel → String
  | .high => "high"
  | .medium => "medium"
  | .low => "low"

def generateImpactAssessment (prAnalysis : PRAnalysisContext)
    (totalIssues criticalIssues : Nat) : String :=
  let riskLevel := impactRiskLevel prAnalysis totalIssues criticalIssues
  let riskEmoji :=
    if riskLevel == .high then "🔴" else if riskLevel == .medium then "🟡" else "🟢"
  let riskText := riskLevelText riskLevel
  let impactAreas :=
    if prAnalysis.primaryChanges.length > 0 then
      " affecting " ++ String.intercalate ", " prAnalysis.primaryChanges
    else ""
  "**Impact Assessment:** " ++ riskEmoji ++ " " ++ capitalize riskText
    ++ " risk changes" ++ impactAreas ++ "."

def generateOverview (prAnalysis : PRAnalysisContext) (filesCount : Nat) : String :=
  let fallbackOverview :=
    "This pull request modifies " ++ toString filesCount ++ " Salesforce "
      ++ (if filesCount == 1 then "file" else "files")
      ++ " with various improvements and updates."
  match prAnalysis.overview with
  | some s => if s.isEmpty then fallbackOverview else s
  | none => fallbackOverview

def generateRecommendation (totalIssues criticalIssues : Nat)
    (prAnalysis : PRAnalysisContext) : String :=
  let fromCounts :=
    if totalIssues == 0 then
      "**APPROVE** - No issues found. The code looks good to merge."
    else if criticalIssues > 0 then
      "**REQUEST_CHANGES** - Address " ++ toString criticalIssues ++ " critical "
        ++ (if criticalIssues == 1 then "issue" else "issues")
        ++ " before merge. Other improvements will enhance code quality."
    else
      "**COMMENT** - Consider addressing " ++ toString totalIssues ++ " "
        ++ (if totalIssues == 1 then "suggestion" else "suggestions")
        ++ " to improve code quality, but no blocking issues found."
  match prAnalysis.recommendationSummary with
  | some s => if s.isEmpty then fromCounts else s
  | none => fromCounts

def generateSummary (reviewResults : List LLMResponse)
    (allFeedback : List CodeReviewFeedback) (changedFiles : List FileChange) : String :=
  let totalIssues := allFeedback.length
  let criticalIssues := (allFeedback.filter (fun f => f.severity == .critical)).length
  let warnings := (allFeedback.filter (fun f => f.severity == .warning)).length
  let improvements := (allFeedback.filter (fun f => f.severity == .improvement)).length
  let categories :=
    allFeedback.foldl (fun acc feedback => bumpCategory acc feedback.category.key) []
  let prAnalysis := extractPRAnalysis reviewResults changedFiles
  let summary :=
    "## 🔍 **Code Review Analysis**\n\n### **Overview**\n"
      ++ generateOverview prAnalysis reviewResults.length ++ "\n\n"
      ++ generateImpactAssessment prAnalysis totalIssues criticalIssues
      ++ "\n\n### **📊 Analysis Results**\n- **Files Reviewed:** "
      ++ toString reviewResults.length
      ++ " Salesforce files\n- **Lines Changed:** +"
      ++ toString prAnalysis.linesAdded ++ "/-" ++ toString prAnalysis.linesDeleted ++ "\n"
      ++ (if totalIssues > 0 then
            "- **Issues Found:** " ++ toString totalIssues ++ " items requiring attention"
          else "- **Issues Found:** None")
  let summary :=
    if totalIssues > 0 then
      let block :=
        summary ++ "\n\n### **🚨 Priority Actions**\n- 🔴 **Critical ("
          ++ toString criticalIssues ++ ")**: "
          ++ (if criticalIssues > 0 then "Requires immediate attention" else "None")
          ++ "\n- 🟡 **Warning (" ++ toString warnings ++ ")**: "
          ++ (if warnings > 0 then "Should be addressed" else "None")
          ++ "\n- 🔵 **Enhancement (" ++ toString improvements ++ ")**: "
          ++ (if improvements > 0 then "Optional improvements" else "None")
      if categories.length > 0 then
        block ++ "\n\n### **📋 Findings by Category**"
          ++ String.join (categories.map (fun p =>
              "\n- " ++ getCategoryEmoji p.1 ++ " **" ++ p.1 ++ "**: " ++ toString p.2))
      else block
    else summary
  summary ++ "\n\n### **✅ Recommendation**\n"
    ++ generateRecommendation totalIssues criticalIssues prAnalysis
    ++ "\n\n---\n*🚀 Powered by Cirus AI - Context-aware Salesforce code reviews*"

/-! ### The review run (`ReviewService.reviewPullRequest`)

The GitHub collaborator and the per-file review pipeline (content/diff
acquisition plus `LLMManager.generateReview`) are abstracted as an
environment.  `reviewOf file = none` models any caught per-file failure —
an empty fetched file (the logged skip) or a throwing review — which the
source logs and skips without aborting the run. -/

structure RunEnv where
  getPullRequestFiles : Except String (List FileChange)
  reviewOf : FileChange → Option LLMResponse
  summaryFiles : Except String (List FileChange)
  createReview : GitHubPullRequestReview → Except String Unit

/-- The per-file loop of `reviewPullRequest` (lines 315-381): successful
reviews are accumulated in order, each finding re-attached to the
originating changed file before being merged. -/
def runReviewLoop (files : List FileChange) (reviewOf : FileChange → Option LLMResponse) :
    List LLMResponse × List CodeReviewFeedback :=
  match files with
  | [] => ([], [])
  | file :: rest =>
    match reviewOf file with
    | none => runReviewLoop rest reviewOf
    | some review =>
      let review' :=
        { review with
          feedback := review.feedback.map (fun feedback =>
            { feedback with file := file.filename }) }
      (review' :: (runReviewLoop rest reviewOf).1,
       review'.feedback ++ (runReviewLoop rest reviewOf).2)

def buildBatchedReview (reviewResults : List LLMResponse)
    (allFeedback : List CodeReviewFeedback) (changedFiles : List FileChange) :
    GitHubPullRequestReview :=
  { event := reviewEventOf allFeedback
  , body := generateSummary reviewResults allFeedback changedFiles
  , comments := inlineComments allFeedback }

inductive PostOutcome where
  /-- The single batched `createPullRequestReview` call succeeded. -/
  | batched (review : GitHubPullRequestReview)
  /-- The batched call (or the summary file listing) threw: the source
  falls back to individual inline comments plus one issue comment whose
  body is `generateSummary` over an empty changed-file list. -/
  | fellBack (comments : List GitHubReviewComment) (summary : String)
deriving DecidableEq, Repr

def postBatchedPullRequestReview (env : RunEnv) (reviewResults : List LLMResponse)
    (allFeedback : List CodeReviewFeedback) : PostOutcome :=
  match env.summaryFiles with
  | .error _ => .fellBack (inlineComments allFeedback) (generateSummary reviewResults allFeedback [])
  | .ok actualChangedFilesForSummary =>
    let review := buildBatchedReview reviewResults allFeedback actualChangedFilesForSummary
    match env.createReview review with
    | .ok _ => .batched review
    | .error _ =>
        .fellBack (inlineComments allFeedback) (generateSummary reviewResults allFeedback [])

inductive RunOutcome where
  /-- An error escaped `reviewPullRequest` (thrown before its try/catch). -/
  | thrown (msg : String)
  /-- No Salesforce files: the run returns without posting anything. -/
  | skipped
  /-- The run reached the posting stage. -/
  | completed (post : PostOutcome)
  /-- The outer catch fired: a diagnostic issue comment carrying the error
  message was posted (best-effort) and the run terminated normally. -/
  | errorCommented (msg : String)
deriving DecidableEq, Repr

def reviewPullRequest (env : RunEnv) (repositoryName : String) : RunOutcome :=
  let repoParts := jsSplit repositoryName "/"
  if repoParts.length ≠ 2 then
    .thrown ("Invalid repository name format: " ++ repositoryName)
  else
    match env.getPullRequestFiles with
    | .error e => .errorCommented ("Failed to fetch PR files: " ++ e)
    | .ok actualChangedFiles =>
      let salesforceFiles := actualChangedFiles.filter (fun file =>
        file.status != FileStatus.removed && isSalesforceFile file.filename)
      if salesforceFiles.isEmpty then .skipped
      else
        let results := runReviewLoop salesforceFiles env.reviewOf
        .completed (postBatchedPullRequestReview env results.1 results.2)

/-! ## Dependency-aware context fetcher (src/services/context-fetcher.ts)

GitHub content fetches, existence probes and code search are collaborator
calls, abstracted in `FetchEnv`; the three regex-based dependency
extractors of `SalesforceFileDetector.extractDependencies` are likewise
abstracted (the claims about the fetcher hold for every extraction
result).  `fetch path = none` models a throwing `getFileContent` (caught
in `processFile`).  The state carries, besides the `visitedFiles` set and
`contextFiles` map of the source, a log of the paths whose content was
fetched, appended exactly where `getFileContent` is called.  The `fuel`
argument only bounds the recursion depth for termination: the source's
recursion is finite because every recursive step is guarded by the
context budget. -/

structure FetchEnv where
  maxContextFiles : Nat
  fetch : String → Option String
  fileExists : String → Bool
  searchCode : String → List String
  extractApexDeps : String → List String
  extractLWCDeps : String → List String
  extractAuraDeps : String → List String

structure FetchState where
  visited : List String
  ctx : List (String × ContextFileData)
  fetched : List String
deriving DecidableEq, Repr

/-- JS `Map.prototype.set`: replace in place or append. -/
def mapSet (m : List (String × ContextFileData)) (k : String) (v : ContextFileData) :
    List (String × ContextFileData) :=
  if m.any (fun p => p.1 == k) then
    m.map (fun p => if p.1 == k then (k, v) else p)
  else
    m ++ [(k, v)]

/-- JS `[...new Set(xs)]`: deduplicate keeping first occurrences. -/
def firstDedup : List String → List String
  | [] => []
  | x :: rest => x :: firstDedup (rest.filter (fun y => y ≠ x))
termination_by l => l.length
decreasing_by
  exact Nat.lt_succ_of_le (List.length_filter_le _ _)

def extractDependencies (env : FetchEnv) (content : String) (fileType : SalesforceFileType) :
    List String :=
  firstDedup
    (match fileType.type with
     | .apexClass => env.extractApexDeps content
     | .apexTrigger => env.extractApexDeps content
     | .lwc => env.extractLWCDeps content
     | .aura => env.extractAuraDeps content
     | _ => [])

def generatePossiblePaths (dependency currentDir : String) : List String :=
  let apexExtensions := [".cls", ".trigger"]
  let lwcExtensions := [".js", ".html", ".css"]
  let metadataExtensions := [".object-meta.xml", ".field-meta.xml"]
  (apexExtensions.foldr (fun ext acc =>
      [ currentDir ++ "/" ++ dependency ++ ext
      , "force-app/main/default/classes/" ++ dependency ++ ext
      , "src/classes/" ++ dependency ++ ext
      , "classes/" ++ dependency ++ ext ] ++ acc) [])
  ++ (lwcExtensions.foldr (fun ext acc =>
      [ currentDir ++ "/" ++ dependency ++ "/" ++ dependency ++ ext
      , "force-app/main/default/lwc/" ++ dependency ++ "/" ++ dependency ++ ext
      , "src/lwc/" ++ dependency ++ "/" ++ dependency ++ ext ] ++ acc) [])
  ++ (metadataExtensions.foldr (fun ext acc =>
      [ "force-app/main/default/objects/" ++ dependency ++ "/" ++ dependency ++ ext
      , "src/objects/" ++ dependency ++ ext ] ++ acc) [])

/-- JS `currentFile.substring(0, currentFile.lastIndexOf('/'))` (empty when
the path has no slash, as in JS where `lastIndexOf` yields `-1`). -/
def dirOf (currentFile : String) : String :=
  let parts := jsSplit currentFile "/"
  if parts.length ≤ 1 then "" else String.intercalate "/" parts.dropLast

/-- Model of `ContextFetcher.resolveDependencyPaths`; `findExistingFiles` probes
each candidate path individually (per-path failures are caught and count
as "missing"), and `searchCodeInRepository` returns `[]` on failure. -/
def resolveDependencyPaths (env : FetchEnv) (dependencies : List String)
    (currentFile : String) : List String :=
  let currentDir := dirOf currentFile
  let resolvedPaths := dependencies.foldl
    (fun acc dependency =>
      let possiblePaths := generatePossiblePaths dependency currentDir
      let existingPaths := possiblePaths.filter env.fileExists
      let acc := acc ++ existingPaths
      if existingPaths.isEmpty then
        let searchResults :=
          env.searchCode ("class " ++ dependency ++ " OR interface " ++ dependency)
        let salesforceResults := searchResults.filter isSalesforceFile
        acc ++ salesforceResults.take 2
      else acc)
    []
  firstDedup resolvedPaths

mutual

/-- Model of `ContextFetcher.processFile`. -/
def processFile (env : FetchEnv) : Nat → FetchState → String → FetchState
  | 0, st, _ => st
  | fuel + 1, st, filePath =>
    if filePath ∈ st.visited then st
    else
      let st := { st with visited := filePath :: st.visited
                        , fetched := st.fetched ++ [filePath] }
      match env.fetch filePath with
      | none => st
      | some content =>
        if content.isEmpty then st
        else
          match getFileType filePath with
          | none => st
          | some fileType =>
            let st := { st with
              ctx := mapSet st.ctx filePath ⟨filePath, content, fileType.type⟩ }
            fetchDependencies env fuel st filePath content fileType

/-- Model of `ContextFetcher.fetchDependencies`. -/
def fetchDependencies (env : FetchEnv) (fuel : Nat) (st : FetchState)
    (currentFile content : String) (fileType : SalesforceFileType) : FetchState :=
  if env.maxContextFiles ≤ st.ctx.length then st
  else
    let dependencies := extractDependencies env content fileType
    if dependencies.isEmpty then st
    else depLoop env fuel st (resolveDependencyPaths env dependencies currentFile)

/-- The `for (const depPath of dependencyPaths)` loop of
`fetchDependencies` (the `break` is the `st`-returning guard). -/
def depLoop (env : FetchEnv) (fuel : Nat) (st : FetchState) :
    List String → FetchState
  | [] => st
  | depPath :: rest =>
    if env.maxContextFiles ≤ st.ctx.length then st
    else
      let st' := if depPath ∈ st.visited then st else processFile env fuel st depPath
      depLoop env fuel st' rest

end

/-- The `for (const filePath of processOrder)` loop of
`fetchContextFiles` (again, `break` is the guard returning `st`; the
`try`/`catch` around `processFile` is a no-op since every collaborator
failure is already absorbed inside it). -/
def fetchLoop (env : FetchEnv) (fuel : Nat) (st : FetchState) :
    List String → FetchState
  | [] => st
  | filePath :: rest =>
    if env.maxContextFiles ≤ st.ctx.length then st
    else fetchLoop env fuel (processFile env fuel st filePath) rest

/-- Model of `ContextFetcher.fetchContextFiles` (starting, as the source does after
its `clear()` calls, from empty visited/context state). -/
def fetchContextFiles (env : FetchEnv) (fuel : Nat) (changedFiles : List FileChange) :
    FetchState :=
  let salesforceFiles := changedFiles.filter (fun file => isSalesforceFile file.filename)
  let prioritizedFiles := getFilesByPriority (salesforceFiles.map (fun f => f.filename))
  let processOrder := prioritizedFiles.high ++ prioritizedFiles.medium ++ prioritizedFiles.low
  fetchLoop env fuel ⟨[], [], []⟩ processOrder

/-! ## Claim theorems -/

/-- C2: for every merged finding set, the review event posted by
`postBatchedPullRequestReview` is `REQUEST_CHANGES` when some finding has
severity `critical`, `APPROVE` when the finding set is empty, and
`COMMENT` otherwise. -/
theorem reviewEvent_verdict (allFeedback : List CodeReviewFeedback) :
    ((∃ f ∈ allFeedback, f.severity = Severity.critical) →
      reviewEventOf allFeedback = ReviewEvent.REQUEST_CHANGES) ∧
    (allFeedback = [] → reviewEventOf allFeedback = ReviewEvent.APPROVE) ∧
    ((∀ f ∈ allFeedback, f.severity ≠ Severity.critical) → allFeedback ≠ [] →
      reviewEventOf allFeedback = ReviewEvent.COMMENT) := by
  refine ⟨?_, ?_, ?_⟩
  · rintro ⟨f, hf, hsev⟩
    have hany : allFeedback.any (fun f => f.severity == Severity.critical) = true := by
      simp only [List.any_eq_true]
      exact ⟨f, hf, by simp [hsev]⟩
    simp [reviewEventOf, hany]
  · rintro rfl
    simp [reviewEventOf]
  · intro hnone hne
    have hany : allFeedback.any (fun f => f.severity == Severity.critical) = false := by
      simp only [List.any_eq_false]
      intro f hf
      simpa using hnone f hf
    have hlen : 0 < allFeedback.length := List.length_pos.mpr hne
    simp [reviewEventOf, hany, hlen]

/-- C2 witness: the verdict theorem applied at a concrete critical finding
and at the empty finding set. -/
theorem reviewEvent_verdict_witness :
    reviewEventOf [⟨10, "bad", Severity.critical, Category.security, "Foo.cls", none⟩]
        = ReviewEvent.REQUEST_CHANGES ∧
    reviewEventOf [] = ReviewEvent.APPROVE :=
  ⟨(reviewEvent_verdict _).1
    ⟨⟨10, "bad", Severity.critical, Category.security, "Foo.cls", none⟩, by simp, rfl⟩,
   (reviewEvent_verdict []).2.1 rfl⟩

/-- C3: whenever the primary provider fails, `LLMManager.generateReview`
invokes the fallback provider with exactly the same prompt, code and
context (and only after the primary), and when the fallback also fails
the manager fails with the single combined error carrying both underlying
failure messages. -/
theorem llm_fallback_guarantee (env : LLMEnv) (prompt code : String)
    (context : ContextMap) (primaryError : String)
    (hp : env.primary prompt code context = Except.error primaryError) :
    (llmGenerateReview env prompt code context).2 =
      [⟨.primary, prompt, code, context⟩, ⟨.fallback, prompt, code, context⟩] ∧
    (∀ fallbackError, env.fallback prompt code context = Except.error fallbackError →
      (llmGenerateReview env prompt code context).1 =
        Except.error ("All LLM providers failed. Primary: " ++ primaryError
          ++ ", Fallback: " ++ fallbackError)) ∧
    (∀ result, env.fallback prompt code context = Except.ok result →
      (llmGenerateReview env prompt code context).1 = Except.ok result) := by
  refine ⟨?_, ?_, ?_⟩
  · cases hf : env.fallback prompt code context with
    | ok result => simp [llmGenerateReview, hp, hf]
    | error fallbackError => simp [llmGenerateReview, hp, hf]
  · intro fe hfe
    simp [llmGenerateReview, hp, hfe]
  · intro r hr
    simp [llmGenerateReview, hp, hr]

/-- C3 witness: both providers fail on a concrete input; the trace and the
combined error are produced by the theorem. -/
theorem llm_fallback_guarantee_witness :
    (llmGenerateReview
        ⟨fun _ _ _ => Except.error "primary down", fun _ _ _ => Except.error "fallback down"⟩
        "p" "c" []).2 =
      [⟨.primary, "p", "c", []⟩, ⟨.fallback, "p", "c", []⟩] ∧
    (llmGenerateReview
        ⟨fun _ _ _ => Except.error "primary down", fun _ _ _ => Except.error "fallback down"⟩
        "p" "c" []).1 =
      Except.error
        "All LLM providers failed. Primary: primary down, Fallback: fallback down" :=
  ⟨(llm_fallback_guarantee _ "p" "c" [] "primary down" rfl).1,
   (llm_fallback_guarantee _ "p" "c" [] "primary down" rfl).2.1 "fallback down" rfl⟩

/-- C4: `parseReviewResponse` is total by construction (every throwing
path of the source is caught and routed to `createFallbackResponse`), and
whenever the heuristic extraction path is taken the returned summary's
severity and category counts are recomputed from the produced finding
list rather than taken from the raw input. -/
theorem normalizer_heuristic_recomputes (decode : String → Option LLMResponse)
    (response : String) (h : decode (cleanLLMResponse response) = none) :
    parseReviewResponse decode response = createFallbackResponse response ∧
    (parseReviewResponse decode response).summary.totalIssues =
      (parseReviewResponse decode response).feedback.length ∧
    (parseReviewResponse decode response).summary.criticalIssues =
      ((parseReviewResponse decode response).feedback.filter
        (fun f => f.severity == Severity.critical)).length ∧
    (parseReviewResponse decode response).summary.warnings =
      ((parseReviewResponse decode response).feedback.filter
        (fun f => f.severity == Severity.warning)).length ∧
    (parseReviewResponse decode response).summary.improvements =
      ((parseReviewResponse decode response).feedback.filter
        (fun f => f.severity == Severity.improvement)).length ∧
    (parseReviewResponse decode response).summary.categories =
      categorizeIssues (parseReviewResponse decode response).feedback := by
  have h1 : parseReviewResponse decode response = createFallbackResponse response := by
    simp [parseReviewResponse, h]
  rw [h1]
  exact ⟨rfl, rfl, rfl, rfl, rfl, rfl⟩

/-- C4 witness: the recomputation theorem applied with a rejecting decoder
at a concrete heuristic-worthy raw response. -/
theorem normalizer_heuristic_recomputes_witness :
    (fun _ => (none : Option LLMResponse))
        (cleanLLMResponse "File: a.cls\nLine 3: a security problem in this added method") =
      none ∧
    (parseReviewResponse (fun _ => none)
        "File: a.cls\nLine 3: a security problem in this added method").summary.totalIssues =
      (parseReviewResponse (fun _ => none)
        "File: a.cls\nLine 3: a security problem in this added method").feedback.length :=
  ⟨rfl,
   (normalizer_heuristic_recomputes (fun _ => none)
      "File: a.cls\nLine 3: a security problem in this added method" rfl).2.1⟩

/-- C7 counterexample: the raw response is the two-character string
holding an opening and a closing curly brace — syntactically valid JSON
that does not decode to the required `LLMResponse` shape, so the
`JSON.parse`-plus-validation stage rejects it — yet the adapter call
succeeds with a silent zero-finding result instead of failing and
triggering the fallback provider. -/
theorem adapter_mismatch_counterexample :
    openaiGenerateReview (Except.ok "\x7b\x7d") (fun _ => none) =
      Except.ok { feedback := [], summary := ⟨0, 0, 0, 0, [], []⟩, prAnalysis := none } := by
  rfl

/-- C7 (amended): only a backend failure or an empty response fails the
adapter; any non-empty raw text — in particular one rejected by the
structured decoder — is normalized (heuristically if needed) and returned
as a successful result, so a type-mismatched response with no heuristic
hits is silently treated as zero findings rather than triggering the
fallback provider. -/
theorem adapter_mismatch_degrades (respond : Except String String)
    (decode : String → Option LLMResponse) (raw : String)
    (hok : respond = Except.ok raw) (hne : raw.isEmpty = false)
    (hreject : decode (cleanLLMResponse raw) = none) :
    openaiGenerateReview respond decode = Except.ok (createFallbackResponse raw) := by
  subst hok
  simp [openaiGenerateReview, hne, parseReviewResponse, hreject]

/-- C7 witness: the amended theorem applied at a concrete non-empty,
non-decodable raw response. -/
theorem adapter_mismatch_degrades_witness :
    (Except.ok "no structure here" : Except String String) = Except.ok "no structure here" ∧
    ("no structure here" : String).isEmpty = false ∧
    (fun _ => (none : Option LLMResponse)) (cleanLLMResponse "no structure here") = none ∧
    openaiGenerateReview (Except.ok "no structure here") (fun _ => none) =
      Except.ok (createFallbackResponse "no structure here") :=
  ⟨rfl, rfl, rfl,
   adapter_mismatch_degrades (Except.ok "no structure here") (fun _ => none)
     "no structure here" rfl rfl rfl⟩

/-- C9: every finding in the merged sequence produced by the per-file
review loop is an original backend finding whose `file` field — and no
other field — has been overwritten with the path of the changed file
whose review produced it. -/
theorem aggregator_reattaches_file (files : List FileChange)
    (reviewOf : FileChange → Option LLMResponse) (fb : CodeReviewFeedback)
    (hmem : fb ∈ (runReviewLoop files reviewOf).2) :
    ∃ file ∈ files, ∃ review, reviewOf file = some review ∧
      ∃ g ∈ review.feedback, fb = { g with file := file.filename } := by
  induction files with
  | nil => simp [runReviewLoop] at hmem
  | cons file rest ih =>
    rw [runReviewLoop] at hmem
    cases hro : reviewOf file with
    | none =>
        rw [hro] at hmem
        obtain ⟨f', hf', review, hrev, g, hg, heq⟩ := ih hmem
        exact ⟨f', List.mem_cons_of_mem _ hf', review, hrev, g, hg, heq⟩
    | some review =>
        rw [hro] at hmem
        simp only [List.mem_append, List.mem_map] at hmem
        rcases hmem with ⟨g, hg, heq⟩ | hmem
        · exact ⟨file, List.mem_cons_self _ _, review, hro, g, hg, heq.symm⟩
        · obtain ⟨f', hf', review', hrev, g, hg, heq⟩ := ih hmem
          exact ⟨f', List.mem_cons_of_mem _ hf', review', hrev, g, hg, heq⟩

/-- C9 witness: the reattachment theorem applied at a concrete one-file
run whose backend response carries a bogus file path. -/
theorem aggregator_reattaches_file_witness :
    ({ line := 4, message := "m", severity := Severity.warning
     , category := Category.bug, file := "Foo.cls", suggestion := none } :
        CodeReviewFeedback) ∈
      (runReviewLoop [⟨"Foo.cls", .modified, 2, 1, 3, some "d"⟩]
        (fun _ => some
          ⟨[⟨4, "m", Severity.warning, Category.bug, "wrong.txt", none⟩],
           ⟨1, 0, 1, 0, [("bug", 1)], []⟩, none⟩)).2 ∧
    (∃ file ∈ [(⟨"Foo.cls", .modified, 2, 1, 3, some "d"⟩ : FileChange)],
      ∃ review,
        (fun (_ : FileChange) => some
          (⟨[⟨4, "m", Severity.warning, Category.bug, "wrong.txt", none⟩],
            ⟨1, 0, 1, 0, [("bug", 1)], []⟩, none⟩ : LLMResponse)) file = some review ∧
        ∃ g ∈ review.feedback,
          ({ line := 4, message := "m", severity := Severity.warning
           , category := Category.bug, file := "Foo.cls", suggestion := none } :
              CodeReviewFeedback) = { g with file := file.filename }) :=
  ⟨by decide,
   aggregator_reattaches_file _ _ _ (by decide)⟩

def emptyReviewSummary : ReviewSummary := ⟨0, 0, 0, 0, [], []⟩

def analysisNoRisk : PRAnalysisContext := ⟨0, 0, 0, none, [], none, none⟩

def analysisHighRisk : PRAnalysisContext := ⟨0, 0, 0, none, [], some .high, none⟩

def responseNoRisk : LLMResponse := ⟨[], emptyReviewSummary, some analysisNoRisk⟩

def responseHighRisk : LLMResponse := ⟨[], emptyReviewSummary, some analysisHighRisk⟩

/-- C6 counterexample: the first per-file result carries a PR analysis
without a risk level and a later result explicitly supplies `high`; the
code derives the tier from counts (`low` here) instead of using the
supplied `high`, because `extractPRAnalysis` only consults the first
result whose `prAnalysis` is present. -/
theorem risk_tier_counterexample :
    responseHighRisk.prAnalysis = some analysisHighRisk ∧
    analysisHighRisk.riskLevel = some RiskLevel.high ∧
    impactRiskLevel (extractPRAnalysis [responseNoRisk, responseHighRisk] []) 0 0 =
      RiskLevel.low ∧
    RiskLevel.low ≠ RiskLevel.high :=
  ⟨rfl, rfl, rfl, by decide⟩

/-- C6 (amended): the aggregate risk tier is the risk level supplied by
the first per-file analysis that carried a PR analysis, when that
analysis supplies one; otherwise it is derived: high when the critical
count exceeds 0 or the total count exceeds 10, else medium when the total
count exceeds 3 or actual lines added plus lines deleted exceed 100, else
low. -/
theorem risk_tier_first_analysis (reviewResults : List LLMResponse)
    (changedFiles : List FileChange) (totalIssues criticalIssues : Nat) :
    impactRiskLevel (extractPRAnalysis reviewResults changedFiles) totalIssues
        criticalIssues =
      match ((reviewResults.find? (fun r => r.prAnalysis.isSome)).bind
          (fun r => r.prAnalysis)).bind (fun pa => pa.riskLevel) with
      | some rl => rl
      | none =>
        if criticalIssues > 0 || totalIssues > 10 then RiskLevel.high
        else if totalIssues > 3 ||
            (changedFiles.foldl (fun sum file => sum + file.additions) 0) +
              (changedFiles.foldl (fun sum file => sum + file.deletions) 0) > 100 then
          RiskLevel.medium
        else RiskLevel.low := by
  unfold impactRiskLevel extractPRAnalysis
  cases hfind : reviewResults.find? (fun r => r.prAnalysis.isSome) with
  | none => simp
  | some r =>
    cases hpa : r.prAnalysis with
    | none => simp [hpa]
    | some pa =>
      cases hrl : pa.riskLevel with
      | none => simp [hpa, hrl]
      | some rl => simp [hpa, hrl]

def emptyRunEnv : RunEnv :=
  ⟨Except.ok [], fun _ => none, Except.ok [], fun _ => Except.ok ()⟩

/-- C8 counterexample: a repository identifier with no slash makes
`reviewPullRequest` throw before its try/catch — the error escapes the
run and no diagnostic comment is posted. -/
theorem malformed_repo_counterexample :
    reviewPullRequest emptyRunEnv "bad-repo-name" =
      RunOutcome.thrown "Invalid repository name format: bad-repo-name" ∧
    ∀ msg, reviewPullRequest emptyRunEnv "bad-repo-name" ≠ RunOutcome.errorCommented msg :=
  ⟨rfl, fun _ h => RunOutcome.noConfusion h⟩

/-- C8 (amended): a malformed repository identifier is thrown before the
run's try/catch, so the error escapes `reviewPullRequest` and no
diagnostic comment is posted for it; errors arising after identifier
parsing (here, a failing changed-file listing) do take the diagnostic
path that posts a comment carrying the error message without letting the
error escape. -/
theorem malformed_repo_amended (env : RunEnv) (badName name e : String)
    (hbad : (jsSplit badName "/").length ≠ 2)
    (hgood : (jsSplit name "/").length = 2)
    (herr : env.getPullRequestFiles = Except.error e) :
    reviewPullRequest env badName =
      RunOutcome.thrown ("Invalid repository name format: " ++ badName) ∧
    reviewPullRequest env name =
      RunOutcome.errorCommented ("Failed to fetch PR files: " ++ e) := by
  constructor
  · simp [reviewPullRequest, hbad]
  · simp [reviewPullRequest, hgood, herr]

/-- C8 witness: the amended theorem applied at a concrete slashless
identifier, a concrete well-formed identifier, and a failing listing. -/
theorem malformed_repo_amended_witness :
    (jsSplit "badname" "/").length ≠ 2 ∧
    (jsSplit "owner/repo" "/").length = 2 ∧
    reviewPullRequest ⟨Except.error "boom", fun _ => none, Except.ok [], fun _ => Except.ok ()⟩
        "badname" =
      RunOutcome.thrown "Invalid repository name format: badname" ∧
    reviewPullRequest ⟨Except.error "boom", fun _ => none, Except.ok [], fun _ => Except.ok ()⟩
        "owner/repo" =
      RunOutcome.errorCommented "Failed to fetch PR files: boom" :=
  ⟨by decide, by decide,
   (malformed_repo_amended _ "badname" "owner/repo" "boom" (by decide) (by decide) rfl).1,
   (malformed_repo_amended _ "badname" "owner/repo" "boom" (by decide) (by decide) rfl).2⟩

def fooFileChange : FileChange := ⟨"Foo.cls", .modified, 1, 0, 1, some "diff"⟩

def cleanLLMResult : LLMResponse := ⟨[], emptyReviewSummary, none⟩

def allFailEnv : RunEnv :=
  ⟨Except.ok [fooFileChange], fun _ => none, Except.ok [fooFileChange], fun _ => Except.ok ()⟩

def cleanEnv : RunEnv :=
  ⟨Except.ok [fooFileChange], fun _ => some cleanLLMResult, Except.ok [fooFileChange],
   fun _ => Except.ok ()⟩

/-- C10 counterexample: over the same changed file, the all-reviews-fail
run and the clean zero-finding run both post a batched review with
verdict APPROVE and no inline comments, but the two posted reports are
distinguishable: their summary bodies differ (the files-reviewed count is
0 in the former and 1 in the latter). -/
theorem allfail_report_counterexample :
    reviewPullRequest allFailEnv "o/r" =
      RunOutcome.completed (PostOutcome.batched (buildBatchedReview [] [] [fooFileChange])) ∧
    reviewPullRequest cleanEnv "o/r" =
      RunOutcome.completed (PostOutcome.batched
        (buildBatchedReview [cleanLLMResult] [] [fooFileChange])) ∧
    (buildBatchedReview [] [] [fooFileChange]).event = ReviewEvent.APPROVE ∧
    (buildBatchedReview [cleanLLMResult] [] [fooFileChange]).event = ReviewEvent.APPROVE ∧
    (buildBatchedReview [] [] [fooFileChange]).comments = [] ∧
    (buildBatchedReview [cleanLLMResult] [] [fooFileChange]).comments = [] ∧
    (buildBatchedReview [] [] [fooFileChange]).body ≠
      (buildBatchedReview [cleanLLMResult] [] [fooFileChange]).body :=
  ⟨rfl, rfl, rfl, rfl, rfl, rfl, by decide⟩

lemma runReviewLoop_allfail (files : List FileChange)
    (reviewOf : FileChange → Option LLMResponse)
    (h : ∀ f ∈ files, reviewOf f = none) : runReviewLoop files reviewOf = ([], []) := by
  induction files with
  | nil => rfl
  | cons f rest ih =>
      rw [runReviewLoop, h f (List.mem_cons_self _ _)]
      exact ih fun g hg => h g (List.mem_cons_of_mem _ hg)

/-- C10 (amended): when at least one reviewable (non-removed, recognized)
changed file exists but every per-file review attempt fails, the run
still posts one combined review with zero inline comments and verdict
APPROVE — the same verdict and inline-comment set as a clean review with
no findings, though the summary body records zero reviewed files. -/
theorem allfail_posts_approve (env : RunEnv) (name : String) (files cfs : List FileChange)
    (hname : (jsSplit name "/").length = 2)
    (hfiles : env.getPullRequestFiles = Except.ok files)
    (hsf : files.filter (fun file =>
        file.status != FileStatus.removed && isSalesforceFile file.filename) ≠ [])
    (hfail : ∀ f ∈ files.filter (fun file =>
        file.status != FileStatus.removed && isSalesforceFile file.filename),
        env.reviewOf f = none)
    (hsum : env.summaryFiles = Except.ok cfs)
    (hpost : env.createReview (buildBatchedReview [] [] cfs) = Except.ok ()) :
    reviewPullRequest env name =
      RunOutcome.completed (PostOutcome.batched (buildBatchedReview [] [] cfs)) ∧
    (buildBatchedReview [] [] cfs).comments = [] ∧
    (buildBatchedReview [] [] cfs).event = ReviewEvent.APPROVE := by
  have hloop := runReviewLoop_allfail _ _ hfail
  refine ⟨?_, rfl, rfl⟩
  simp [reviewPullRequest, hname, hfiles, List.isEmpty_iff, hsf, hloop,
        postBatchedPullRequestReview, hsum, hpost]

/-- C10 witness: the amended theorem applied at a concrete one-file run
whose single review attempt fails. -/
theorem allfail_posts_approve_witness :
    (jsSplit "o/r" "/").length = 2 ∧
    [fooFileChange].filter (fun file =>
        file.status != FileStatus.removed && isSalesforceFile file.filename) ≠ [] ∧
    reviewPullRequest allFailEnv "o/r" =
      RunOutcome.completed (PostOutcome.batched (buildBatchedReview [] [] [fooFileChange])) ∧
    (buildBatchedReview [] [] [fooFileChange]).comments = [] ∧
    (buildBatchedReview [] [] [fooFileChange]).event = ReviewEvent.APPROVE :=
  ⟨by decide, by decide,
   allfail_posts_approve allFailEnv "o/r" [fooFileChange] [fooFileChange]
     (by decide) rfl (by decide) (by decide) rfl rfl⟩

/-! ### Context-fetcher invariants (C1, C5) -/

lemma mapSet_length_le (m : List (String × ContextFileData)) (k : String)
    (v : ContextFileData) : (mapSet m k v).length ≤ m.length + 1 := by
  unfold mapSet
  split
  · simp
  · simp

lemma depLoop_budget (env : FetchEnv) (fuel : Nat)
    (hPF : ∀ st p, st.ctx.length < env.maxContextFiles →
      (processFile env fuel st p).ctx.length ≤ env.maxContextFiles) :
    ∀ l st, st.ctx.length ≤ env.maxContextFiles →
      (depLoop env fuel st l).ctx.length ≤ env.maxContextFiles := by
  intro l
  induction l with
  | nil => intro st h; simpa [depLoop] using h
  | cons p rest ih =>
    intro st h
    rw [depLoop]
    split
    · exact h
    · rename_i hguard
      by_cases hv : p ∈ st.visited
      · simpa [hv] using ih st h
      · simpa [hv] using ih _ (hPF st p (Nat.lt_of_not_le hguard))

lemma fetchDeps_budget (env : FetchEnv) (fuel : Nat)
    (hPF : ∀ st p, st.ctx.length < env.maxContextFiles →
      (processFile env fuel st p).ctx.length ≤ env.maxContextFiles)
    (st : FetchState) (currentFile content : String) (ft : SalesforceFileType)
    (h : st.ctx.length ≤ env.maxContextFiles) :
    (fetchDependencies env fuel st currentFile content ft).ctx.length ≤
      env.maxContextFiles := by
  rw [fetchDependencies]
  split
  · exact h
  · by_cases hd : (extractDependencies env content ft).isEmpty
    · simpa [hd] using h
    · simpa [hd] using depLoop_budget env fuel hPF _ st h

lemma processFile_budget (env : FetchEnv) :
    ∀ fuel st p, st.ctx.length < env.maxContextFiles →
      (processFile env fuel st p).ctx.length ≤ env.maxContextFiles := by
  intro fuel
  induction fuel with
  | zero =>
    intro st p h
    rw [processFile]
    exact Nat.le_of_lt h
  | succ f ih =>
    intro st p h
    rw [processFile]
    by_cases hv : p ∈ st.visited
    · simpa [hv] using Nat.le_of_lt h
    · simp only [hv, if_false, ite_false]
      cases hfetch : env.fetch p with
      | none => exact Nat.le_of_lt h
      | some content =>
        by_cases hempty : content.isEmpty
        · simp [hempty]
          exact Nat.le_of_lt h
        · simp only [hempty, if_false, ite_false]
          cases hft : getFileType p with
          | none => exact Nat.le_of_lt h
          | some ft =>
            refine fetchDeps_budget env f ih _ _ _ _ ?_
            calc (mapSet st.ctx p ⟨p, content, ft.type⟩).length
                ≤ st.ctx.length + 1 := mapSet_length_le _ _ _
              _ ≤ env.maxContextFiles := h

lemma fetchLoop_budget (env : FetchEnv) (fuel : Nat) :
    ∀ l st, st.ctx.length ≤ env.maxContextFiles →
      (fetchLoop env fuel st l).ctx.length ≤ env.maxContextFiles := by
  intro l
  induction l with
  | nil => intro st h; simpa [fetchLoop] using h
  | cons p rest ih =>
    intro st h
    rw [fetchLoop]
    split
    · exact h
    · rename_i hguard
      exact ih _ (processFile_budget env fuel st p (Nat.lt_of_not_le hguard))

lemma fetchLoop_frozen (env : FetchEnv) (fuel : Nat) (st : FetchState)
    (l : List String) (h : env.maxContextFiles ≤ st.ctx.length) :
    fetchLoop env fuel st l = st := by
  cases l with
  | nil => rw [fetchLoop]
  | cons p rest => rw [fetchLoop]; simp [h]

lemma depLoop_frozen (env : FetchEnv) (fuel : Nat) (st : FetchState)
    (l : List String) (h : env.maxContextFiles ≤ st.ctx.length) :
    depLoop env fuel st l = st := by
  cases l with
  | nil => rw [depLoop]
  | cons p rest => rw [depLoop]; simp [h]

lemma fetchDeps_frozen (env : FetchEnv) (fuel : Nat) (st : FetchState)
    (currentFile content : String) (ft : SalesforceFileType)
    (h : env.maxContextFiles ≤ st.ctx.length) :
    fetchDependencies env fuel st currentFile content ft = st := by
  rw [fetchDependencies]
  simp [h]

/-- C1: for every collaborator behavior (fuel bounds only the recursion
depth), the context map returned by `fetchContextFiles` has size at most
the configured `maxContextFiles`; and once the ceiling is reached the
resolver stops — the top-level loop, the dependency loop and the
dependency expansion all return the state unchanged, so no further
candidate file is fetched. -/
theorem contextFetcher_budget (env : FetchEnv) (fuel : Nat)
    (changedFiles : List FileChange) (st : FetchState) (order : List String)
    (currentFile content : String) (ft : SalesforceFileType)
    (hfull : env.maxContextFiles ≤ st.ctx.length) :
    (fetchContextFiles env fuel changedFiles).ctx.length ≤ env.maxContextFiles ∧
    fetchLoop env fuel st order = st ∧
    depLoop env fuel st order = st ∧
    fetchDependencies env fuel st currentFile content ft = st :=
  ⟨fetchLoop_budget env fuel _ _ (Nat.zero_le _),
   fetchLoop_frozen env fuel st order hfull,
   depLoop_frozen env fuel st order hfull,
   fetchDeps_frozen env fuel st currentFile content ft hfull⟩

/-- C1 witness: the budget theorem applied to a concrete environment with
a zero budget and a saturated concrete state. -/
theorem contextFetcher_budget_witness :
    (⟨0, fun _ => some "c", fun _ => false, fun _ => [], fun _ => [], fun _ => [],
        fun _ => []⟩ : FetchEnv).maxContextFiles ≤
      (⟨[], [], []⟩ : FetchState).ctx.length ∧
    (fetchContextFiles
        ⟨0, fun _ => some "c", fun _ => false, fun _ => [], fun _ => [], fun _ => [],
          fun _ => []⟩ 5
        [⟨"A.cls", .added, 1, 0, 1, none⟩]).ctx.length ≤ 0 ∧
    fetchLoop
        ⟨0, fun _ => some "c", fun _ => false, fun _ => [], fun _ => [], fun _ => [],
          fun _ => []⟩ 5 ⟨[], [], []⟩ ["A.cls"] = ⟨[], [], []⟩ :=
  ⟨Nat.zero_le _,
   (contextFetcher_budget _ 5 [⟨"A.cls", .added, 1, 0, 1, none⟩] ⟨[], [], []⟩ ["A.cls"]
      "c" "c" ⟨".cls", .apexClass, .high, "apex"⟩ (Nat.zero_le _)).1,
   (contextFetcher_budget _ 5 [⟨"A.cls", .added, 1, 0, 1, none⟩] ⟨[], [], []⟩ ["A.cls"]
      "c" "c" ⟨".cls", .apexClass, .high, "apex"⟩ (Nat.zero_le _)).2.1⟩

/-- The no-duplicate-fetch invariant: the fetch log has no duplicates and
every logged path is already in the visited set. -/
def FetchInv (st : FetchState) : Prop :=
  st.fetched.Nodup ∧ ∀ p ∈ st.fetched, p ∈ st.visited

lemma depLoop_inv (env : FetchEnv) (fuel : Nat)
    (hPF : ∀ st p, FetchInv st → FetchInv (processFile env fuel st p)) :
    ∀ l st, FetchInv st → FetchInv (depLoop env fuel st l) := by
  intro l
  induction l with
  | nil => intro st h; simpa [depLoop] using h
  | cons p rest ih =>
    intro st h
    rw [depLoop]
    split
    · exact h
    · by_cases hv : p ∈ st.visited
      · simpa [hv] using ih st h
      · simpa [hv] using ih _ (hPF st p h)

lemma fetchDeps_inv (env : FetchEnv) (fuel : Nat)
    (hPF : ∀ st p, FetchInv st → FetchInv (processFile env fuel st p))
    (st : FetchState) (currentFile content : String) (ft : SalesforceFileType)
    (h : FetchInv st) :
    FetchInv (fetchDependencies env fuel st currentFile content ft) := by
  rw [fetchDependencies]
  split
  · exact h
  · by_cases hd : (extractDependencies env content ft).isEmpty
    · simpa [hd] using h
    · simpa [hd] using depLoop_inv env fuel hPF _ st h

lemma processFile_inv (env : FetchEnv) :
    ∀ fuel st p, FetchInv st → FetchInv (processFile env fuel st p) := by
  intro fuel
  induction fuel with
  | zero =>
    intro st p h
    rw [processFile]
    exact h
  | succ f ih =>
    intro st p h
    rw [processFile]
    by_cases hv : p ∈ st.visited
    · simpa [hv] using h
    · simp only [hv, if_false, ite_false]
      have hnf : p ∉ st.fetched := fun hpf => hv (h.2 p hpf)
      have hinv1 : FetchInv ⟨p :: st.visited, st.ctx, st.fetched ++ [p]⟩ := by
        constructor
        · simpa [List.nodup_append] using ⟨h.1, hnf⟩
        · intro q hq
          rcases List.mem_append.mp hq with hq | hq
          · exact List.mem_cons_of_mem _ (h.2 q hq)
          · simp at hq
            simp [hq]
      cases hfetch : env.fetch p with
      | none => exact hinv1
      | some content =>
        by_cases hempty : content.isEmpty
        · simpa [hempty] using hinv1
        · simp only [hempty, if_false, ite_false]
          cases hft : getFileType p with
          | none => exact hinv1
          | some ft => exact fetchDeps_inv env f ih _ _ _ _ hinv1

lemma fetchLoop_inv (env : FetchEnv) (fuel : Nat) :
    ∀ l st, FetchInv st → FetchInv (fetchLoop env fuel st l) := by
  intro l
  induction l with
  | nil => intro st h; simpa [fetchLoop] using h
  | cons p rest ih =>
    intro st h
    rw [fetchLoop]
    split
    · exact h
    · exact ih _ (processFile_inv env fuel st p h)

/-- C5: within one run, the dependency resolver never fetches the content
of the same path twice — the chronological fetch log of
`fetchContextFiles` has no duplicate path, because every path is added to
the visited set before its content is fetched and visited paths are
skipped on every later encounter. -/
theorem contextFetcher_no_duplicate_fetch (env : FetchEnv) (fuel : Nat)
    (changedFiles : List FileChange) :
    (fetchContextFiles env fuel changedFiles).fetched.Nodup ∧
    ∀ p ∈ (fetchContextFiles env fuel changedFiles).fetched,
      p ∈ (fetchContextFiles env fuel changedFiles).visited := by
  have h : FetchInv (fetchContextFiles env fuel changedFiles) := by
    unfold fetchContextFiles
    exact fetchLoop_inv env fuel _ _ ⟨List.nodup_nil, by simp⟩
  exact ⟨h.1, h.2⟩

/-- C5 witness: the no-duplicate-fetch theorem applied to a concrete
environment whose dependency graph revisits its own paths. -/
theorem contextFetcher_no_duplicate_fetch_witness :
    (fetchContextFiles
        ⟨3, fun _ => some "content", fun p => p == "classes/Dep.cls", fun _ => [],
          fun _ => ["Dep"], fun _ => [], fun _ => []⟩ 10
        [⟨"A.cls", .added, 1, 0, 1, none⟩, ⟨"B.cls", .added, 1, 0, 1, none⟩]).fetched.Nodup :=
  (contextFetcher_no_duplicate_fetch _ 10 _).1

end SfDemo
